import Mathlib

/-!
Verification of the UniCrime multi-source ingestion and normalization pipeline.

The definitions below are shallow embeddings of the Python code under
`preprocessing/`: the schema normalizers (`preprocess.py`,
`preprocess/preprocess_nebraska.py`), the shared geocoding layer
(`preprocess/shared.py`), the paginated collectors' dedup loops
(`get_psu_data.py`, `get_northwestern_data.py`), the Nebraska session-token
handshake (`get_nebraska_data.py`) and the Northwestern label/value blotter
parser (`get_northwestern_data.py`).  Machine strings are Lean `String`s,
Python `None` is `Option.none`, pandas `NaT`/`NaN` cells are `none`,
and numeric coordinates are rationals.
-/

namespace UniCrime

/-! ## Python string primitives used by the pipeline -/

/-- The single-quote character, written via its code point. -/
def sq : Char := Char.ofNat 39

/-- Python `str.strip()` whitespace set: space, tab, newline, carriage
return, vertical tab, form feed. -/
def isPyWs (c : Char) : Bool :=
  c = ' ' || c = Char.ofNat 9 || c = Char.ofNat 10 || c = Char.ofNat 13 ||
  c = Char.ofNat 11 || c = Char.ofNat 12

/-- Python `str.strip()`: drop leading and trailing whitespace. -/
def pyStrip (s : String) : String :=
  String.mk (((s.data.dropWhile isPyWs).reverse.dropWhile isPyWs).reverse)

/-- Membership of a quote character, for Python `.strip('"\x27')`. -/
def isQuoteChar (c : Char) : Bool := c = '"' || c = sq

/-- Python `str.strip('"\x27')`: drop leading and trailing quote characters. -/
def pyStripQuotes (s : String) : String :=
  String.mk (((s.data.dropWhile isQuoteChar).reverse.dropWhile isQuoteChar).reverse)

/-- Core loop of Python `str.title()`: upper-case an alphabetic character
that follows a non-alphabetic one, lower-case the rest.  The boolean is
whether the previous character was alphabetic. -/
def pyTitleGo : Bool → List Char → List Char
  | _, [] => []
  | prevAlpha, c :: cs =>
    if c.isAlpha then
      (if prevAlpha then c.toLower else c.toUpper) :: pyTitleGo true cs
    else
      c :: pyTitleGo false cs

/-- Python `str.title()`. -/
def pyTitle (s : String) : String := String.mk (pyTitleGo false s.data)

/-- Python `str.replace(", ", " - ")`, scanning left to right. -/
def replaceCommaSpace : List Char → List Char
  | [] => []
  | ',' :: ' ' :: rest => ' ' :: '-' :: ' ' :: replaceCommaSpace rest
  | c :: rest => c :: replaceCommaSpace rest

/-- Whether the first list is an initial segment of the second. -/
def listStartsWith : List Char → List Char → Bool
  | [], _ => true
  | _ :: _, [] => false
  | p :: ps, c :: cs => p = c && listStartsWith ps cs

/-- Whether `pat` occurs as a contiguous run inside `cs` (Python `in`). -/
def hasSub (pat : List Char) : List Char → Bool
  | [] => listStartsWith pat []
  | c :: cs => listStartsWith pat (c :: cs) || hasSub pat cs

/-! ## The `MM/DD/YYYY HH:MM` datetime grammar

`preprocess.py` and `preprocess_nebraska.py` parse both datetime columns with
`pd.to_datetime(..., format="%m/%d/%Y %H:%M")`; an embedding of that strict
grammar follows (1-2 digit month/day/hour/minute fields, 4 digit year, the
whole string consumed, real calendar validity). -/

/-- A parsed wall-clock timestamp. -/
structure DateTime where
  year : Nat
  month : Nat
  day : Nat
  hour : Nat
  minute : Nat
deriving DecidableEq

/-- Numeric value of a digit run. -/
def natOfDigits (cs : List Char) : Nat :=
  cs.foldl (fun a c => a * 10 + (c.toNat - 48)) 0

/-- Consume between `lo` and `hi` leading digits, returning their value and
the rest of the input. -/
def takeNum (lo hi : Nat) (cs : List Char) : Option (Nat × List Char) :=
  let ds := cs.takeWhile Char.isDigit
  if lo ≤ ds.length ∧ ds.length ≤ hi then
    some (natOfDigits ds, cs.dropWhile Char.isDigit)
  else none

/-- Consume one expected literal character. -/
def expectChar (c : Char) : List Char → Option (List Char)
  | x :: xs => if x = c then some xs else none
  | [] => none

/-- Gregorian leap-year test. -/
def isLeap (y : Nat) : Bool := (y % 4 = 0 && y % 100 ≠ 0) || y % 400 = 0

/-- Days in a month. -/
def daysInMonth (y m : Nat) : Nat :=
  if m = 2 then (if isLeap y then 29 else 28)
  else if m = 4 ∨ m = 6 ∨ m = 9 ∨ m = 11 then 30
  else 31

/-- Strict parse of `"%m/%d/%Y %H:%M"` (as used with `errors="coerce"` the
failure case is `none`, mirroring `NaT`). -/
def parseMDYHM (s : String) : Option DateTime := do
  let (m, r) ← takeNum 1 2 s.data
  let r ← expectChar '/' r
  let (d, r) ← takeNum 1 2 r
  let r ← expectChar '/' r
  let (y, r) ← takeNum 4 4 r
  let r ← expectChar ' ' r
  let (hh, r) ← takeNum 1 2 r
  let r ← expectChar ':' r
  let (mi, r) ← takeNum 1 2 r
  if r = [] ∧ 1 ≤ m ∧ m ≤ 12 ∧ 1 ≤ d ∧ d ≤ daysInMonth y m ∧ hh ≤ 23 ∧ mi ≤ 59 then
    some ⟨y, m, d, hh, mi⟩
  else none

/-! ## Schema normalizers: row dropping (`process_crime_log_csv`,
`process_nebraska_csv`) -/

/-- One raw CSV row, restricted to the columns the drop logic reads. -/
structure RawRow where
  number : String
  reported : String
  occurred : String
  location : String
deriving DecidableEq

/-- One normalized output row (datetime and identity columns). -/
structure OutRow where
  case_number : String
  report_datetime : Option DateTime
  occurred_datetime : DateTime
  location : String
deriving DecidableEq

/-- The validity mask of `process_crime_log_csv` (preprocess.py:163-165):
`report_parsed.notna() & occurred_parsed.notna()`. -/
def uiucValid (r : RawRow) : Bool :=
  (parseMDYHM r.reported).isSome && (parseMDYHM r.occurred).isSome

/-- `process_crime_log_csv` restricted to datetime validation and output
construction: rows failing the mask are dropped and counted, surviving rows
are emitted with both datetimes re-parsed (preprocess.py:162-183). -/
def processCrimeLogRows (rows : List RawRow) : List OutRow × Nat :=
  let df := rows.filter uiucValid
  let nDropped := (rows.filter (fun r => !(uiucValid r))).length
  (df.filterMap (fun r =>
    match parseMDYHM r.reported, parseMDYHM r.occurred with
    | some rd, some od => some ⟨r.number, some rd, od, r.location⟩
    | _, _ => none), nDropped)

/-- The validity mask of `process_nebraska_csv`
(preprocess_nebraska.py:82-83): `occurred_parsed.notna()` only. -/
def nebraskaValid (r : RawRow) : Bool := (parseMDYHM r.occurred).isSome

/-- `process_nebraska_csv` restricted to datetime validation and output
construction (preprocess_nebraska.py:81-107): rows whose occurred time fails
to parse are dropped and counted; the report column, when present at all, is
parsed with `errors="coerce"` so an unparsable value becomes `none`; when the
column is absent every report value is `none` (`pd.NaT`). -/
def processNebraskaRows (hasReportedCol : Bool) (rows : List RawRow) :
    List OutRow × Nat :=
  let df := rows.filter nebraskaValid
  let nDropped := (rows.filter (fun r => !(nebraskaValid r))).length
  (df.filterMap (fun r =>
    (parseMDYHM r.occurred).map (fun od =>
      ⟨r.number, if hasReportedCol then parseMDYHM r.reported else none,
       od, r.location⟩)), nDropped)

/-! ## Geocoding layer (`preprocess/shared.py`)

The in-memory cache is a Python dict from query string to
`tuple[float, float] | None`, embedded as an insertion-ordered association
list; coordinates are rationals. -/

/-- In-memory geocode cache: Python
`dict[str, tuple[float, float] | None]`. -/
abbrev Cache := List (String × Option (ℚ × ℚ))

/-- Dict lookup: `cache[k]` if `k in cache`. -/
def cacheLookup (c : Cache) (k : String) : Option (Option (ℚ × ℚ)) :=
  (c.find? (fun kv => kv.1 = k)).map (fun kv => kv.2)

/-- Dict assignment `cache[k] = v`: replace in place if the key exists,
append otherwise. -/
def cacheInsert (c : Cache) (k : String) (v : Option (ℚ × ℚ)) : Cache :=
  if c.any (fun kv => kv.1 = k) then
    c.map (fun kv => if kv.1 = k then (k, v) else kv)
  else c ++ [(k, v)]

/-- `_save_geocode_cache` (shared.py:86-90): persist only the entries whose
value is non-null. -/
def saveGeocodeCache (cache : Cache) : List (String × (ℚ × ℚ)) :=
  cache.filterMap (fun kv => kv.2.map (fun v => (kv.1, v)))

/-- The `"location"` object of one Google geocoding result: `lat`/`lng`
keys may each be missing. -/
structure GPoint where
  lat : Option ℚ
  lng : Option ℚ
deriving DecidableEq

/-- One element of the `"results"` array; `location` is `none` when the
`geometry.location` path is missing or empty. -/
structure GResult where
  location : Option GPoint
deriving DecidableEq

/-- A Google Geocoding API interaction as seen by `_geocode_google`:
either the request/JSON-decode raised, or a decoded payload with a status
string and a results array. -/
inductive GeocodeResponse where
  | fail
  | payload (status : String) (results : List GResult)
deriving DecidableEq

/-- `round(x, 7)`: round to 7 decimal digits. -/
def round7 (x : ℚ) : ℚ := (round (x * 10000000) : ℤ) / 10000000

/-- `_geocode_google` (shared.py:93-114) as a function of the decoded
response: any failure path yields `(None, None)`; success yields both
coordinates rounded to 7 digits. -/
def geocodeGoogle : GeocodeResponse → Option ℚ × Option ℚ
  | .fail => (none, none)
  | .payload status results =>
    if status ≠ "OK" ∨ results = [] then (none, none)
    else
      match results.head? with
      | none => (none, none)
      | some r =>
        match r.location with
        | none => (none, none)
        | some pt =>
          match pt.lat, pt.lng with
          | some la, some lo => (some (round7 la), some (round7 lo))
          | _, _ => (none, none)

/-- Result of one `geocode_location` call, with the coordinates returned,
the cache state after the call, and instrumentation counting how many
external API calls and cache reads the call performed. -/
structure GeoOutcome where
  coords : Option ℚ × Option ℚ
  cache : Cache
  extCalls : Nat
  cacheReads : Nat
deriving DecidableEq

/-- `geocode_location` (shared.py:117-151).  `apiKey` is the value of
`api_key or os.environ.get("GOOGLE_MAPS_API_KEY")` with `""` for a falsy
key; `net` maps the query string to the decoded response of the external
service. -/
def geocode_location (location : String) (cache : Cache) (apiKey : String)
    (region : String) (net : String → GeocodeResponse) : GeoOutcome :=
  if pyStrip location = "" then ⟨(none, none), cache, 0, 0⟩
  else
    match cacheLookup cache (pyStrip location ++ ", " ++ region) with
    | some (some p) => ⟨(some p.1, some p.2), cache, 0, 1⟩
    | _ =>
      if apiKey = "" then ⟨(none, none), cache, 0, 1⟩
      else
        match geocodeGoogle (net (pyStrip location ++ ", " ++ region)) with
        | (some la, some lo) =>
          ⟨(some la, some lo),
           cacheInsert cache (pyStrip location ++ ", " ++ region) (some (la, lo)),
           1, 1⟩
        | c => ⟨c, cache, 1, 1⟩

/-- Coordinate assignment for one Nebraska row
(preprocess_nebraska.py:98-131): CSV coordinates are used only when both are
present; otherwise, unless the location is blank, the geocoder fills both
slots from one `geocode_location` call. -/
def nebraskaCoords (latRaw lonRaw : Option ℚ) (loc : String) (cache : Cache)
    (apiKey : String) (net : String → GeocodeResponse) :
    (Option ℚ × Option ℚ) × Cache :=
  let hasCsv := latRaw.isSome && lonRaw.isSome
  let lat0 := if hasCsv then latRaw else none
  let lon0 := if hasCsv then lonRaw else none
  if lat0.isSome && lon0.isSome then ((lat0, lon0), cache)
  else if pyStrip loc = "" then ((lat0, lon0), cache)
  else
    let o := geocode_location loc cache apiKey "Nebraska, USA" net
    (o.coords, o.cache)

/-! ## City backfill (`ensure_location_has_city`, shared.py:51-72) -/

/-- `dict.get` on the school-code → city lookup. -/
def lookupCity (cityLookup : List (String × String)) (code : String) :
    Option String :=
  (cityLookup.find? (fun kv => kv.1 = code)).map (fun kv => kv.2)

/-- `ensure_location_has_city`: the location column is a list of cells
(`none` models a NaN cell).  When the lookup has a non-empty city for the
school code, every non-blank location without a comma becomes
`"{strip(loc)}, {City.title()}"`. -/
def ensure_location_has_city (cityLookup : List (String × String))
    (schoolCode : String) (locs : List (Option String)) :
    List (Option String) :=
  match lookupCity cityLookup (pyStrip schoolCode) with
  | none => locs
  | some city =>
    if city = "" then locs
    else
      let cityStr := pyTitle city
      locs.map (fun cell =>
        match cell with
        | none => none
        | some loc =>
          if pyStrip loc = "" then some loc
          else if loc.data.contains ',' then some loc
          else some (pyStrip loc ++ ", " ++ cityStr))

/-! ## Disposition and narrative cleanup -/

/-- `_normalize_disposition` (shared.py:154-163) on one cell, after
`astype(str)`: `"nan"` (the stringified NaN, then replaced by `None`) and
`""` collapse to absent; any other string is stripped, unwrapped of quotes,
title-cased, and its `", "` runs become `" - "`. -/
def normalize_disposition (x : String) : Option String :=
  if x = "nan" ∨ x = "" then none
  else some (String.mk (replaceCommaSpace (pyTitle (pyStripQuotes (pyStrip x))).data))

/-- `_normalize_narrative` (preprocess_umich.py:51-61) on one cell;
`unescape` abstracts the stdlib `html.unescape`. -/
def normalize_narrative (unescape : String → String) (x : String) :
    Option String :=
  if x = "nan" ∨ x = "" then none
  else some (unescape (pyStripQuotes (pyStrip x)))

/-! ## Dedup/Merge across fetched pages (`get_psu_data.py:117-141`,
`get_northwestern_data.py:126-141`) -/

/-- A raw record as the paginated collectors see it: the incident
identifier plus the rest of the row. -/
structure PRec where
  num : String
  payload : String
deriving DecidableEq

/-- The PSU per-page loop body over a record stream: keep a record iff its
number has not been seen, threading the seen set. -/
def dedupGo (seen : List String) : List PRec → List PRec
  | [] => []
  | r :: rs =>
    if r.num ∈ seen then dedupGo seen rs
    else r :: dedupGo (r.num :: seen) rs

/-- The seen set after the PSU loop consumes a record stream. -/
def seenAfter (seen : List String) : List PRec → List String
  | [] => seen
  | r :: rs =>
    if r.num ∈ seen then seenAfter seen rs
    else seenAfter (r.num :: seen) rs

/-- The PSU `main` page loop (get_psu_data.py:121-141) restricted to
merging: pages are processed in order, each through the seen-set filter. -/
def psuMergeGo (seen : List String) : List (List PRec) → List PRec
  | [] => []
  | page :: rest => dedupGo seen page ++ psuMergeGo (seenAfter seen page) rest

/-- All unique records collected by the PSU run over the given pages. -/
def psuMerge (pages : List (List PRec)) : List PRec := psuMergeGo [] pages

/-- The Northwestern loop body (get_northwestern_data.py:135-138): keep a
record iff its number is truthy (non-empty) and unseen. -/
def nwDedupGo (seen : List String) : List PRec → List PRec
  | [] => []
  | r :: rs =>
    if r.num ≠ "" ∧ r.num ∉ seen then r :: nwDedupGo (r.num :: seen) rs
    else nwDedupGo seen rs

/-- The seen set after the Northwestern loop consumes a record stream. -/
def nwSeenAfter (seen : List String) : List PRec → List String
  | [] => seen
  | r :: rs =>
    if r.num ≠ "" ∧ r.num ∉ seen then nwSeenAfter (r.num :: seen) rs
    else nwSeenAfter seen rs

/-- The Northwestern `main` page loop (get_northwestern_data.py:130-140)
restricted to merging. -/
def nwMergeGo (seen : List String) : List (List PRec) → List PRec
  | [] => []
  | page :: rest => nwDedupGo seen page ++ nwMergeGo (nwSeenAfter seen page) rest

/-- All unique records collected by the Northwestern run. -/
def nwMerge (pages : List (List PRec)) : List PRec := nwMergeGo [] pages

/-- The merge policy in the specification's words: keep the first
occurrence of each identifier in first-seen insertion order, discarding
every later duplicate. -/
def firstOccurrences : List PRec → List PRec
  | [] => []
  | r :: rs => r :: firstOccurrences (rs.filter (fun s => s.num != r.num))
termination_by l => l.length
decreasing_by
  simp only [List.length_cons]
  exact Nat.lt_succ_of_le (List.length_filter_le _ _)

/-! ## Nebraska session-token handshake (`get_nebraska_data.py:35-45`) -/

/-- The literal pattern prefix of `r"name='_UserID' value='([^']+)'"`. -/
def userIdPat : List Char :=
  ("name=" ++ String.mk [sq] ++ "_UserID" ++ String.mk [sq] ++
   " value=" ++ String.mk [sq]).data

/-- After the literal prefix matched: capture the maximal run of
non-quote characters, requiring it non-empty and followed by a closing
quote (the `([^']+)'` tail of the regex). -/
def takeTok (cs : List Char) : Option (List Char) :=
  if cs.takeWhile (fun c => c ≠ sq) ≠ [] ∧ cs.dropWhile (fun c => c ≠ sq) ≠ [] then
    some (cs.takeWhile (fun c => c ≠ sq))
  else none

/-- Leftmost-match scan of `re.search` for the `_UserID` pattern. -/
def scanUserId : List Char → Option (List Char)
  | [] => none
  | c :: cs =>
    if listStartsWith userIdPat (c :: cs) then
      match takeTok ((c :: cs).drop userIdPat.length) with
      | some tok => some tok
      | none => scanUserId cs
    else scanUserId cs

/-- `re.search(r"name='_UserID' value='([^']+)'", text)`, returning the
captured group. -/
def extractUserID (html : String) : Option String :=
  (scanUserId html.data).map String.mk

/-- Outcome of `fetch_archive`: either the `RuntimeError` raised when the
token is missing, or the body of the second POST's response. -/
inductive FetchResult where
  | fatal (msg : String)
  | ok (body : String)
deriving DecidableEq

/-- `fetch_archive` (get_nebraska_data.py:35-45): extract `_UserID` from
the first response; raise if absent, else POST it back (`post` maps the
token sent to the second response body) and return that body. -/
def fetch_archive (firstResponse : String) (post : String → String) :
    FetchResult :=
  match extractUserID firstResponse with
  | none => .fatal "Could not find _UserID in first response"
  | some uid => .ok (post uid)

/-! ## Northwestern label/value blotter parser
(`parse_blotter_table`, get_northwestern_data.py:41-115) -/

/-- One record of the blotter parser (the dict built at the sentinel row;
`school_code`, latitude and longitude are constants in the source). -/
structure NWRec where
  number : String
  reported : String
  occurred : String
  location : String
  description : String
  disposition : String
  narrative : String
deriving DecidableEq

/-- The fresh record opened by a `Case Number` sentinel row. -/
def newNWRec (num : String) : NWRec := ⟨num, "", "", "", "", "", ""⟩

/-- The label dispatch applied to the currently open record for one
non-sentinel row (the `elif` chain, get_northwestern_data.py:85-110). -/
def applyLabel (c : NWRec) (left right : String) : NWRec :=
  if left = "Date & Time: Reported" then { c with reported := right }
  else if left = "Date & Time: Occurred" then { c with occurred := right }
  else if left = "" ∧ right ≠ "" ∧ hasSub "at ".data right.data ∧
          (right.data.head?.map Char.isAlpha).getD false then
    if c.narrative ≠ "" then { c with narrative := c.narrative ++ " End: " ++ right }
    else { c with narrative := "End occurred: " ++ right }
  else if left = "Location:" then { c with location := right }
  else if left = "Common Name:" ∧ right ≠ "" then
    if c.location ≠ "" then { c with location := c.location ++ " (" ++ right ++ ")" }
    else { c with location := right }
  else if left = "Incident Type:" then { c with description := right }
  else if left = "Criminal Offense:" ∧ right ≠ "" then
    if c.narrative ≠ "" then { c with narrative := c.narrative ++ " " ++ right }
    else { c with narrative := right }
  else if left = "Disposition:" then { c with disposition := right }
  else c

/-- The row loop of `parse_blotter_table`: rows are the cell-text lists of
each `<tr>`; rows with fewer than two cells are skipped; a `Case Number`
row with non-empty value flushes the open record and opens a new one; the
open record is flushed when the rows end. -/
def parseBlotterGo (cur : Option NWRec) : List (List String) → List NWRec
  | [] => cur.toList
  | (left :: right :: _) :: rest =>
    if left = "Case Number" ∧ right ≠ "" then
      cur.toList ++ parseBlotterGo (some (newNWRec right)) rest
    else
      match cur with
      | none => parseBlotterGo none rest
      | some c => parseBlotterGo (some (applyLabel c left right)) rest
  | _ :: rest => parseBlotterGo cur rest

/-- `parse_blotter_table` restricted to the selected table's rows. -/
def parseBlotterRows (rows : List (List String)) : List NWRec :=
  parseBlotterGo none rows

/-- The sentinel content of one row: the case number opened by that row,
if it is a sentinel row. -/
def sentinelRight : List String → Option String
  | left :: right :: _ =>
    if left = "Case Number" ∧ right ≠ "" then some right else none
  | _ => none

/-! ## Helper lemmas -/

/-- Filtering before a `filterMap` that is already `none` on the removed
elements changes nothing. -/
theorem filterMap_filter_of_none {α β : Type} (p : α → Bool) (f : α → Option β)
    (h : ∀ a, p a = false → f a = none) :
    ∀ l : List α, (l.filter p).filterMap f = l.filterMap f
  | [] => rfl
  | a :: l => by
    cases hp : p a with
    | true =>
      simp only [List.filter_cons, hp, if_pos, List.filterMap_cons]
      cases hf : f a <;>
        simp [hf, filterMap_filter_of_none p f h l]
    | false =>
      simp only [List.filter_cons, hp, Bool.false_eq_true, if_false,
        List.filterMap_cons, h a hp]
      exact filterMap_filter_of_none p f h l

/-! ## Claim C1 -/

/-- Claim C1 counterexample: in `process_crime_log_csv` a row whose
occurred time parses under the grammar but whose report time does not is
nevertheless dropped (and counted), so an unparsable report time does cause
a row drop, contrary to the claim. -/
theorem c1_report_time_drop_counterexample :
    (parseMDYHM "01/01/2026 10:00").isSome = true
  ∧ parseMDYHM "notadate" = none
  ∧ processCrimeLogRows [⟨"25-001", "notadate", "01/01/2026 10:00", "Main Quad"⟩]
      = ([], 1) := by
  decide

/-- Claim C1 (amended): the Nebraska normalizer drops a raw row exactly when
its occurred time fails to parse, counting the drops, and an emitted row's
report_datetime is exactly the (possibly failed, hence unset) parse of its
report time — never a substituted default — while the UIUC-style
`process_crime_log_csv` drops a row exactly when its occurred time or its
report time fails to parse, counting those drops. -/
theorem c1_normalizer_drop_policy (rows : List RawRow) (hasRep : Bool) :
    (processNebraskaRows hasRep rows).1
      = rows.filterMap (fun r => (parseMDYHM r.occurred).map (fun od =>
          ⟨r.number, if hasRep then parseMDYHM r.reported else none,
           od, r.location⟩))
  ∧ (processNebraskaRows hasRep rows).2
      = (rows.filter (fun r => (parseMDYHM r.occurred).isNone)).length
  ∧ (processCrimeLogRows rows).1
      = rows.filterMap (fun r =>
          match parseMDYHM r.reported, parseMDYHM r.occurred with
          | some rd, some od => some ⟨r.number, some rd, od, r.location⟩
          | _, _ => none)
  ∧ (processCrimeLogRows rows).2
      = (rows.filter (fun r =>
          (parseMDYHM r.reported).isNone || (parseMDYHM r.occurred).isNone)).length := by
  refine ⟨?_, ?_, ?_, ?_⟩
  · exact filterMap_filter_of_none _ _
      (fun a ha => by
        cases h : parseMDYHM a.occurred with
        | none => simp [h]
        | some od => simp [nebraskaValid, h] at ha) rows
  · show (rows.filter (fun r => !(nebraskaValid r))).length = _
    congr 1
    refine List.filter_congr (fun a _ => ?_)
    cases h : parseMDYHM a.occurred <;> simp [nebraskaValid, h]
  · exact filterMap_filter_of_none _ _
      (fun a ha => by
        cases h1 : parseMDYHM a.reported <;> cases h2 : parseMDYHM a.occurred <;>
          simp [uiucValid, h1, h2] at ha ⊢) rows
  · show (rows.filter (fun r => !(uiucValid r))).length = _
    congr 1
    refine List.filter_congr (fun a _ => ?_)
    cases h1 : parseMDYHM a.reported <;> cases h2 : parseMDYHM a.occurred <;>
      simp [uiucValid, h1, h2]

/-! ## Claim C10 -/

/-- Claim C10: a blank (empty or whitespace-only) location makes
`geocode_location` return `(None, None)` immediately: the cache is neither
read nor written and no external call happens, whatever the cache, key,
region and remote service. -/
theorem c10_blank_location_short_circuit (loc : String) (cache : Cache)
    (apiKey region : String) (net : String → GeocodeResponse)
    (h : pyStrip loc = "") :
    geocode_location loc cache apiKey region net
      = ⟨(none, none), cache, 0, 0⟩ := by
  simp [geocode_location, h]

/-- Witness for C10 at a whitespace-only location and a populated cache. -/
theorem c10_blank_location_short_circuit_witness :
    geocode_location "   " [("x, Illinois, USA", some ((1 : ℚ), 2))]
        "somekey" "Illinois, USA" (fun _ => .fail)
      = ⟨(none, none), [("x, Illinois, USA", some ((1 : ℚ), 2))], 0, 0⟩ :=
  c10_blank_location_short_circuit "   " _ _ _ _ (by decide)

/-! ## Claim C4 -/

/-- Claim C4: a cache entry with a non-null pair under the key the code
builds for a location and region (`"{location.strip()}, {region}"`) makes
`geocode_location` return that pair with zero external calls and the cache
untouched. -/
theorem c4_cache_hit_no_external_call (location : String) (cache : Cache)
    (apiKey region : String) (net : String → GeocodeResponse) (p : ℚ × ℚ)
    (hloc : pyStrip location ≠ "")
    (hcache : cacheLookup cache (pyStrip location ++ ", " ++ region)
      = some (some p)) :
    geocode_location location cache apiKey region net
      = ⟨(some p.1, some p.2), cache, 0, 1⟩ := by
  simp [geocode_location, hloc, hcache]

/-- Witness for C4: the spec's pre-populated entry for
`"123 Main St, Illinois, USA"` is returned with zero external calls. -/
theorem c4_cache_hit_witness :
    geocode_location "123 Main St"
        [("123 Main St, Illinois, USA", some ((40 : ℚ), -88))]
        "somekey" "Illinois, USA" (fun _ => .fail)
      = ⟨(some (40 : ℚ), some (-88 : ℚ)),
         [("123 Main St, Illinois, USA", some ((40 : ℚ), -88))], 0, 1⟩ :=
  c4_cache_hit_no_external_call "123 Main St" _ "somekey" "Illinois, USA" _
    ((40 : ℚ), -88) (by decide) (by decide)

/-! ## Claim C7 -/

/-- Claim C7 counterexample: neither cleanup transform maps `"NA"` or
`"<NA>"` to an absent value — disposition turns them into `"Na"` and
`"<Na>"`, narrative passes them through. -/
theorem c7_na_sentinels_not_collapsed :
    normalize_disposition "NA" = some "Na"
  ∧ normalize_disposition "<NA>" = some "<Na>"
  ∧ normalize_narrative id "NA" = some "NA"
  ∧ normalize_narrative id "<NA>" = some "<NA>" := by
  decide

/-- Claim C7 (amended): the disposition and narrative cleanup transforms map
the sentinel strings `"nan"` and `""` to an explicit absent value; the
strings `"NA"` and `"<NA>"` are not collapsed but go through the ordinary
transform (disposition yields `"Na"` and `"<Na>"`). -/
theorem c7_sentinel_collapse (u : String → String) (x : String)
    (h : x = "nan" ∨ x = "") :
    (normalize_disposition x = none ∧ normalize_narrative u x = none)
  ∧ (normalize_disposition "NA" = some "Na"
     ∧ normalize_disposition "<NA>" = some "<Na>")
  ∧ (normalize_narrative u "NA" = some (u "NA")
     ∧ normalize_narrative u "<NA>" = some (u "<NA>")) := by
  refine ⟨⟨?_, ?_⟩, ⟨by decide, by decide⟩, ⟨?_, ?_⟩⟩
  · rcases h with h | h <;> simp [normalize_disposition, h]
  · rcases h with h | h <;> simp [normalize_narrative, h]
  · have h1 : pyStripQuotes (pyStrip "NA") = "NA" := by decide
    simp [normalize_narrative, h1]
  · have h2 : pyStripQuotes (pyStrip "<NA>") = "<NA>" := by decide
    simp [normalize_narrative, h2]

/-- Witness for C7 at the sentinel `"nan"` with the identity entity
decoder. -/
theorem c7_sentinel_collapse_witness :
    normalize_disposition "nan" = none ∧ normalize_narrative id "nan" = none :=
  (c7_sentinel_collapse id "nan" (Or.inl rfl)).1

/-! ## Claim C6 -/

/-- Claim C6 counterexample: with backfill city `"EVANSTON"`, the location
`"Lot 5 "` becomes `"Lot 5, Evanston"` — the trimmed original plus the
title-cased city — not the original string followed by `", EVANSTON"`. -/
theorem c6_backfill_counterexample :
    ensure_location_has_city [("001740", "EVANSTON")] "001740" [some "Lot 5 "]
      = [some "Lot 5, Evanston"]
  ∧ ("Lot 5, Evanston" : String) ≠ "Lot 5 " ++ ", " ++ "EVANSTON" := by
  decide

/-- Claim C6 (amended): when the backfill has a non-empty city for the
school code, a non-blank comma-free location is rewritten to its
whitespace-trimmed self followed by `", {City}"` with the city
title-cased; locations containing a comma or blank stay unchanged, and the
whole column is unchanged when the lookup has no (or an empty) entry. -/
theorem c6_city_backfill (cityLookup : List (String × String))
    (schoolCode : String) (locs : List (Option String)) :
    (lookupCity cityLookup (pyStrip schoolCode) = none →
      ensure_location_has_city cityLookup schoolCode locs = locs)
  ∧ (lookupCity cityLookup (pyStrip schoolCode) = some "" →
      ensure_location_has_city cityLookup schoolCode locs = locs)
  ∧ (∀ city, lookupCity cityLookup (pyStrip schoolCode) = some city →
      city ≠ "" → ∀ (i : Nat) (loc : String), locs.get? i = some (some loc) →
      (loc.data.contains ',' = true →
        (ensure_location_has_city cityLookup schoolCode locs).get? i
          = some (some loc))
      ∧ (pyStrip loc = "" →
        (ensure_location_has_city cityLookup schoolCode locs).get? i
          = some (some loc))
      ∧ (loc.data.contains ',' = false → pyStrip loc ≠ "" →
        (ensure_location_has_city cityLookup schoolCode locs).get? i
          = some (some (pyStrip loc ++ ", " ++ pyTitle city)))) := by
  refine ⟨fun h => by simp [ensure_location_has_city, h],
          fun h => by simp [ensure_location_has_city, h],
          fun city hcity hne i loc hloc => ?_⟩
  have hres : (ensure_location_has_city cityLookup schoolCode locs).get? i
      = ((locs.get? i).map (fun cell =>
          match cell with
          | none => none
          | some loc =>
            if pyStrip loc = "" then some loc
            else if loc.data.contains ',' then some loc
            else some (pyStrip loc ++ ", " ++ pyTitle city))) := by
    simp [ensure_location_has_city, hcity, hne, List.get?_eq_getElem?,
      List.getElem?_map]
  rw [hres, hloc]
  refine ⟨fun hc => ?_, fun hb => ?_, fun hc hb => ?_⟩
  all_goals
    show some (if pyStrip loc = "" then some loc
        else if loc.data.contains ',' then some loc
        else some (pyStrip loc ++ ", " ++ pyTitle city)) = _
  · by_cases hb : pyStrip loc = ""
    · rw [if_pos hb]
    · rw [if_neg hb, if_pos hc]
  · rw [if_pos hb]
  · rw [if_neg hb, if_neg (fun hcc => by rw [hc] at hcc; exact Bool.false_ne_true hcc)]

/-- Witness for C6: a comma-free padded location is rewritten with the
title-cased city, a comma-bearing one is untouched. -/
theorem c6_city_backfill_witness :
    (ensure_location_has_city [("001740", "EVANSTON")] "001740"
        [some "Lot 5 ", some "A, B"]).get? 0 = some (some "Lot 5, Evanston")
  ∧ (ensure_location_has_city [("001740", "EVANSTON")] "001740"
        [some "Lot 5 ", some "A, B"]).get? 1 = some (some "A, B") := by
  have h := (c6_city_backfill [("001740", "EVANSTON")] "001740"
      [some "Lot 5 ", some "A, B"]).2.2 "EVANSTON" (by decide) (by decide)
  constructor
  · have h0 := (h 0 "Lot 5 " (by decide)).2.2 (by decide) (by decide)
    have e : pyStrip "Lot 5 " ++ ", " ++ pyTitle "EVANSTON" = "Lot 5, Evanston" := by
      decide
    rwa [e] at h0
  · exact (h 1 "A, B" (by decide)).1 (by decide)

/-! ## Claim C3 -/

/-- Membership facts for dict assignment with a non-null value: it can
never introduce a null-valued entry. -/
theorem mem_cacheInsert_none_elim (c : Cache) (q k : String) (v : ℚ × ℚ)
    (h : (k, (none : Option (ℚ × ℚ))) ∈ cacheInsert c q (some v)) :
    (k, (none : Option (ℚ × ℚ))) ∈ c := by
  unfold cacheInsert at h
  split at h
  · rcases List.mem_map.mp h with ⟨kv, hkv, heq⟩
    by_cases hk : kv.1 = q
    · rw [if_pos hk] at heq
      exact absurd heq (by simp)
    · rw [if_neg hk] at heq
      rwa [heq] at hkv
  · rcases List.mem_append.mp h with h1 | h1
    · exact h1
    · exact absurd (List.mem_singleton.mp h1) (by simp)

/-- Shape of the cache after a `geocode_location` call: either untouched,
or extended at the query key with a successful coordinate pair that is also
the returned value. -/
theorem geocode_location_cache_cases (loc : String) (cache : Cache)
    (apiKey region : String) (net : String → GeocodeResponse) :
    (geocode_location loc cache apiKey region net).cache = cache ∨
    ∃ q la lo,
      (geocode_location loc cache apiKey region net).coords = (some la, some lo)
      ∧ (geocode_location loc cache apiKey region net).cache
          = cacheInsert cache q (some (la, lo)) := by
  unfold geocode_location
  split
  · exact Or.inl rfl
  · split
    · exact Or.inl rfl
    · split
      · exact Or.inl rfl
      · split
        · exact Or.inr ⟨_, _, _, rfl, rfl⟩
        · exact Or.inl rfl

/-- Claim C3: persisting the cache writes exactly the non-null entries, and
a `geocode_location` call leaves the cache unchanged on any failed lookup —
it never records a null result. -/
theorem c3_cache_success_only :
    (∀ (cache : Cache) (k : String) (p : ℚ × ℚ),
      (k, p) ∈ saveGeocodeCache cache ↔ (k, some p) ∈ cache)
  ∧ (∀ (loc : String) (cache : Cache) (apiKey region : String)
      (net : String → GeocodeResponse),
      ((geocode_location loc cache apiKey region net).coords.1 = none ∨
       (geocode_location loc cache apiKey region net).coords.2 = none) →
      (geocode_location loc cache apiKey region net).cache = cache)
  ∧ (∀ (loc : String) (cache : Cache) (apiKey region : String)
      (net : String → GeocodeResponse) (k : String),
      (k, (none : Option (ℚ × ℚ)))
          ∈ (geocode_location loc cache apiKey region net).cache →
      (k, (none : Option (ℚ × ℚ))) ∈ cache) := by
  refine ⟨fun cache k p => ?_, fun loc cache apiKey region net hfail => ?_,
          fun loc cache apiKey region net k hmem => ?_⟩
  · simp only [saveGeocodeCache, List.mem_filterMap]
    constructor
    · rintro ⟨⟨k', v⟩, hmem, heq⟩
      cases v with
      | none => simp at heq
      | some q =>
        simp only [Option.map_some', Option.some_inj, Prod.mk.injEq] at heq
        obtain ⟨rfl, rfl⟩ := heq
        exact hmem
    · intro hmem
      exact ⟨(k, some p), hmem, rfl⟩
  · rcases geocode_location_cache_cases loc cache apiKey region net with h | ⟨q, la, lo, hc, _⟩
    · exact h
    · rw [hc] at hfail
      rcases hfail with h1 | h1 <;> exact absurd h1 (by simp)
  · rcases geocode_location_cache_cases loc cache apiKey region net with h | ⟨q, la, lo, _, hc⟩
    · rwa [h] at hmem
    · rw [hc] at hmem
      exact mem_cacheInsert_none_elim cache q k (la, lo) hmem

/-- Witness for C3: a populated mixed cache persists only its successful
entry, and a failing external call leaves the cache untouched. -/
theorem c3_cache_success_only_witness :
    (("a, Illinois, USA", ((1 : ℚ), 2))
        ∈ saveGeocodeCache
            [("a, Illinois, USA", some ((1 : ℚ), 2)), ("b, Illinois, USA", none)]
      ↔ ("a, Illinois, USA", some ((1 : ℚ), 2))
        ∈ ([("a, Illinois, USA", some ((1 : ℚ), 2)), ("b, Illinois, USA", none)] : Cache))
  ∧ (geocode_location "c" [("a, Illinois, USA", some ((1 : ℚ), 2))] "somekey"
        "Illinois, USA" (fun _ => .fail)).cache
      = [("a, Illinois, USA", some ((1 : ℚ), 2))] := by
  constructor
  · exact c3_cache_success_only.1
      [("a, Illinois, USA", some ((1 : ℚ), 2)), ("b, Illinois, USA", none)]
      "a, Illinois, USA" ((1 : ℚ), 2)
  · exact c3_cache_success_only.2.1 "c" [("a, Illinois, USA", some ((1 : ℚ), 2))]
      "somekey" "Illinois, USA" (fun _ => .fail) (by decide)

/-! ## Claim C2 -/

/-- `_geocode_google` returns both coordinates or neither. -/
theorem geocodeGoogle_pair (resp : GeocodeResponse) :
    ((geocodeGoogle resp).1 = none ↔ (geocodeGoogle resp).2 = none) := by
  rcases resp with _ | ⟨status, results⟩
  · simp [geocodeGoogle]
  · rcases results with _ | ⟨⟨loc⟩, rs⟩
    · simp [geocodeGoogle]
    · rcases loc with _ | ⟨la, lo⟩
      · by_cases hs : status = "OK" <;> simp [geocodeGoogle, hs]
      · rcases la with _ | la <;> rcases lo with _ | lo <;>
          by_cases hs : status = "OK" <;> simp [geocodeGoogle, hs]

/-- `geocode_location` returns both coordinates or neither. -/
theorem geocode_location_pair (loc : String) (cache : Cache)
    (apiKey region : String) (net : String → GeocodeResponse) :
    ((geocode_location loc cache apiKey region net).coords.1 = none ↔
     (geocode_location loc cache apiKey region net).coords.2 = none) := by
  unfold geocode_location
  split
  · simp
  · split
    · simp
    · split
      · simp
      · split
        · simp
        · rename_i c heq
          exact geocodeGoogle_pair (net (pyStrip loc ++ ", " ++ region))

/-- Claim C2: both for a raw `_geocode_google` response and for a Nebraska
row resolved through CSV columns, cache or geocoder call, latitude and
longitude are either both set or both absent. -/
theorem c2_lat_lon_both_or_neither (resp : GeocodeResponse)
    (latRaw lonRaw : Option ℚ) (loc : String) (cache : Cache)
    (apiKey : String) (net : String → GeocodeResponse) :
    ((geocodeGoogle resp).1 = none ↔ (geocodeGoogle resp).2 = none)
  ∧ (((nebraskaCoords latRaw lonRaw loc cache apiKey net).1).1 = none ↔
     ((nebraskaCoords latRaw lonRaw loc cache apiKey net).1).2 = none) := by
  refine ⟨geocodeGoogle_pair resp, ?_⟩
  have hg := geocode_location_pair loc cache apiKey "Nebraska, USA" net
  rcases latRaw with _ | la <;> rcases lonRaw with _ | lo <;>
    by_cases hb : pyStrip loc = "" <;>
    simp [nebraskaCoords, hb, hg]

/-! ## Claim C8 -/

/-- A successful `listStartsWith` exhibits the suffix. -/
theorem listStartsWith_exists : ∀ p l : List Char,
    listStartsWith p l = true → ∃ r, l = p ++ r
  | [], l, _ => ⟨l, rfl⟩
  | p :: ps, [], h => by simp [listStartsWith] at h
  | p :: ps, c :: cs, h => by
    simp only [listStartsWith, Bool.and_eq_true, decide_eq_true_eq] at h
    obtain ⟨rfl, h2⟩ := h
    obtain ⟨r, rfl⟩ := listStartsWith_exists ps cs h2
    exact ⟨r, rfl⟩

/-- The head of a non-empty `dropWhile` fails the predicate. -/
theorem dropWhile_head_false {α : Type} (p : α → Bool) :
    ∀ (l : List α) (x : α) (xs : List α),
      l.dropWhile p = x :: xs → p x = false
  | [], x, xs, h => by simp [List.dropWhile] at h
  | a :: l, x, xs, h => by
    rw [List.dropWhile_cons] at h
    split at h
    · exact dropWhile_head_false p l x xs h
    · rename_i hpa
      injection h with h1 _
      subst h1
      simpa using hpa

/-- A successful `takeTok` yields a non-empty token followed by a closing
quote in the input. -/
theorem takeTok_sound (cs tok : List Char) (h : takeTok cs = some tok) :
    tok ≠ [] ∧ ∃ rest, cs = tok ++ sq :: rest := by
  unfold takeTok at h
  split at h
  · rename_i hcond
    injection h with h'
    subst h'
    refine ⟨hcond.1, ?_⟩
    rcases hd : cs.dropWhile (fun c => c ≠ sq) with _ | ⟨x, xs⟩
    · exact absurd hd hcond.2
    · have hx : (fun c => decide (c ≠ sq)) x = false :=
        dropWhile_head_false _ cs x xs hd
      have hxsq : x = sq := by simpa using hx
      refine ⟨xs, ?_⟩
      have hsplit := List.takeWhile_append_dropWhile
        (p := fun c => decide (c ≠ sq)) (l := cs)
      rw [hd, hxsq] at hsplit
      exact hsplit.symm
  · exact absurd h (by simp)

/-- Soundness of the leftmost scan: a captured token is non-empty and the
full pattern occurrence (prefix, token, closing quote) is present in the
input. -/
theorem scanUserId_sound : ∀ cs tok : List Char, scanUserId cs = some tok →
    tok ≠ [] ∧ ∃ pre suf, cs = pre ++ userIdPat ++ tok ++ sq :: suf
  | [], tok, h => by simp [scanUserId] at h
  | c :: cs, tok, h => by
    unfold scanUserId at h
    by_cases hsw : listStartsWith userIdPat (c :: cs) = true
    · rw [if_pos hsw] at h
      rcases htok : takeTok ((c :: cs).drop userIdPat.length) with _ | tok2
      · simp only [htok] at h
        obtain ⟨hne, pre, suf, hps⟩ := scanUserId_sound cs tok h
        exact ⟨hne, c :: pre, suf, by simp [hps]⟩
      · simp only [htok, Option.some_inj] at h
        subst h
        obtain ⟨r, hr⟩ := listStartsWith_exists userIdPat (c :: cs) hsw
        have hdrop : (c :: cs).drop userIdPat.length = r := by
          rw [hr]; exact List.drop_left userIdPat r
        rw [hdrop] at htok
        obtain ⟨hne, rest, hrest⟩ := takeTok_sound r tok2 htok
        refine ⟨hne, [], rest, ?_⟩
        rw [hr, hrest]
        simp
    · rw [if_neg hsw] at h
      obtain ⟨hne, pre, suf, hps⟩ := scanUserId_sound cs tok h
      exact ⟨hne, c :: pre, suf, by simp [hps]⟩

/-- Claim C8: the handshake is fatal exactly when no `_UserID` token
matches in the first response; otherwise the captured token is non-empty,
occurs in the HTML inside the expected pattern, and the second POST's
response body (for exactly that token) is returned. -/
theorem c8_session_token_handshake (html : String) (post : String → String) :
    (extractUserID html = none →
      fetch_archive html post
        = .fatal "Could not find _UserID in first response")
  ∧ (∀ uid, extractUserID html = some uid →
      fetch_archive html post = .ok (post uid)
      ∧ uid ≠ ""
      ∧ ∃ pre suf, html.data = pre ++ userIdPat ++ uid.data ++ sq :: suf) := by
  constructor
  · intro h
    simp [fetch_archive, h]
  · intro uid h
    refine ⟨by simp [fetch_archive, h], ?_, ?_⟩
    · obtain ⟨tok, htok, rfl⟩ := Option.map_eq_some'.mp h
      obtain ⟨hne, _⟩ := scanUserId_sound html.data tok htok
      intro hcontra
      exact hne (congrArg String.data hcontra)
    · obtain ⟨tok, htok, rfl⟩ := Option.map_eq_some'.mp h
      obtain ⟨_, pre, suf, hps⟩ := scanUserId_sound html.data tok htok
      exact ⟨pre, suf, hps⟩

/-- A first response carrying
`name='_UserID' value='abc123'` inside a form. -/
def sampleTokenHtml : String :=
  "<form><input type=" ++ String.mk [sq] ++ "hidden" ++ String.mk [sq] ++
  " name=" ++ String.mk [sq] ++ "_UserID" ++ String.mk [sq] ++
  " value=" ++ String.mk [sq] ++ "abc123" ++ String.mk [sq] ++ " /></form>"

/-- Witness for C8: the sample token is extracted and echoed through the
second POST; a token-free page is fatal. -/
theorem c8_session_token_handshake_witness :
    fetch_archive sampleTokenHtml (fun u => "BODY " ++ u) = .ok "BODY abc123"
  ∧ fetch_archive "<html>no token here</html>" (fun u => "BODY " ++ u)
      = .fatal "Could not find _UserID in first response" := by
  constructor
  · exact ((c8_session_token_handshake sampleTokenHtml
      (fun u => "BODY " ++ u)).2 "abc123" (by decide)).1
  · exact (c8_session_token_handshake "<html>no token here</html>"
      (fun u => "BODY " ++ u)).1 (by decide)

/-! ## Claim C9 -/

/-- The label dispatch never changes the case number of the open record. -/
theorem applyLabel_number (c : NWRec) (left right : String) :
    (applyLabel c left right).number = c.number := by
  unfold applyLabel
  repeat' split
  all_goals rfl

/-- The case number of a freshly opened record. -/
theorem newNWRec_number (r : String) : (newNWRec r).number = r := rfl

/-- Generalized blotter loop: the emitted case numbers are the open
record's (flushed at the end) followed by the sentinel values in row
order. -/
theorem parseBlotterGo_map_number :
    ∀ (rows : List (List String)) (cur : Option NWRec),
      (parseBlotterGo cur rows).map NWRec.number
        = cur.toList.map NWRec.number ++ rows.filterMap sentinelRight
  | [], cur => by cases cur <;> simp [parseBlotterGo]
  | [] :: rest, cur => by
    simpa [parseBlotterGo, sentinelRight]
      using parseBlotterGo_map_number rest cur
  | [x] :: rest, cur => by
    simpa [parseBlotterGo, sentinelRight]
      using parseBlotterGo_map_number rest cur
  | (left :: right :: more) :: rest, cur => by
    by_cases hs : left = "Case Number" ∧ right ≠ ""
    · have ih := parseBlotterGo_map_number rest (some (newNWRec right))
      simp [parseBlotterGo, sentinelRight, hs, ih, newNWRec_number]
    · cases cur with
      | none =>
        simpa [parseBlotterGo, sentinelRight, hs]
          using parseBlotterGo_map_number rest none
      | some c =>
        have ih := parseBlotterGo_map_number rest (some (applyLabel c left right))
        simp [parseBlotterGo, sentinelRight, hs, ih, applyLabel_number]

/-- Claim C9: in the label/value blotter parser a non-empty `Case Number`
row closes the open record and opens a new one, the last open record is
flushed at table end (the emitted numbers are exactly the sentinel values
in order), and the spec's concrete table yields exactly the two expected
records. -/
theorem c9_blotter_sentinel_segmentation (rows : List (List String)) :
    (parseBlotterRows rows).map NWRec.number = rows.filterMap sentinelRight
  ∧ parseBlotterRows
      [["Case Number", "A1"], ["Location:", "Lot 5"],
       ["Case Number", "A2"], ["Location:", "Lot 9"]]
      = [⟨"A1", "", "", "Lot 5", "", "", ""⟩,
         ⟨"A2", "", "", "Lot 9", "", "", ""⟩] := by
  refine ⟨?_, by decide⟩
  simpa [parseBlotterRows] using parseBlotterGo_map_number rows none

/-! ## Claim C5 -/

/-- The PSU seen-set filter distributes over appended record streams. -/
theorem dedupGo_append : ∀ (l1 l2 : List PRec) (seen : List String),
    dedupGo seen (l1 ++ l2)
      = dedupGo seen l1 ++ dedupGo (seenAfter seen l1) l2
  | [], l2, seen => rfl
  | r :: rs, l2, seen => by
    by_cases hm : r.num ∈ seen <;>
      simp [dedupGo, seenAfter, hm, dedupGo_append rs l2]

/-- The PSU page loop equals one pass of the seen-set filter over the
concatenation of all pages. -/
theorem psuMergeGo_join : ∀ (pages : List (List PRec)) (seen : List String),
    psuMergeGo seen pages = dedupGo seen pages.flatten
  | [], seen => rfl
  | page :: rest, seen => by
    simp [psuMergeGo, psuMergeGo_join rest, dedupGo_append]

/-- One filter pass with an extended seen set is a double filter. -/
theorem filter_num_notin_cons (rs : List PRec) (a : String)
    (seen : List String) :
    rs.filter (fun r => decide (r.num ∉ a :: seen))
      = (rs.filter (fun r => decide (r.num ∉ seen))).filter
          (fun s => s.num != a) := by
  rw [List.filter_filter]
  refine List.filter_congr (fun x _ => ?_)
  by_cases h1 : x.num = a <;> by_cases h2 : x.num ∈ seen <;>
    simp [h1, h2]

/-- Unfolding equation of the first-occurrence policy on `[]`. -/
theorem firstOccurrences_nil : firstOccurrences [] = [] := by
  rw [firstOccurrences.eq_def]

/-- Unfolding equation of the first-occurrence policy on a cons. -/
theorem firstOccurrences_cons (r : PRec) (rs : List PRec) :
    firstOccurrences (r :: rs)
      = r :: firstOccurrences (rs.filter (fun s => s.num != r.num)) := by
  rw [firstOccurrences.eq_def]

/-- The seen-set pass is the specification's first-occurrence policy on the
records not yet seen. -/
theorem dedupGo_eq_firstOccurrences :
    ∀ (l : List PRec) (seen : List String),
      dedupGo seen l
        = firstOccurrences (l.filter (fun r => decide (r.num ∉ seen)))
  | [], seen => by rw [List.filter_nil, firstOccurrences_nil, dedupGo]
  | r :: rs, seen => by
    by_cases hm : r.num ∈ seen
    · rw [dedupGo, if_pos hm, List.filter_cons]
      have hd : decide (r.num ∉ seen) = false := by simp [hm]
      rw [hd]
      simp only [Bool.false_eq_true, if_false]
      exact dedupGo_eq_firstOccurrences rs seen
    · rw [dedupGo, if_neg hm, List.filter_cons]
      have hd : decide (r.num ∉ seen) = true := by simp [hm]
      rw [hd]
      simp only [if_true]
      rw [firstOccurrences_cons, dedupGo_eq_firstOccurrences rs (r.num :: seen),
        filter_num_notin_cons]

/-- No record surviving the seen-set pass has its number in the seen
set. -/
theorem dedupGo_num_notin : ∀ (l : List PRec) (seen : List String)
    (x : PRec), x ∈ dedupGo seen l → x.num ∉ seen
  | [], seen, x, hx => by simp [dedupGo] at hx
  | r :: rs, seen, x, hx => by
    by_cases hm : r.num ∈ seen
    · rw [dedupGo, if_pos hm] at hx
      exact dedupGo_num_notin rs seen x hx
    · rw [dedupGo, if_neg hm] at hx
      rcases List.mem_cons.mp hx with rfl | hx'
      · exact hm
      · have := dedupGo_num_notin rs (r.num :: seen) x hx'
        exact fun hc => this (List.mem_cons_of_mem _ hc)

/-- The numbers surviving the seen-set pass are pairwise distinct. -/
theorem dedupGo_map_num_nodup : ∀ (l : List PRec) (seen : List String),
    ((dedupGo seen l).map PRec.num).Nodup
  | [], seen => by simp [dedupGo]
  | r :: rs, seen => by
    by_cases hm : r.num ∈ seen
    · rw [dedupGo, if_pos hm]
      exact dedupGo_map_num_nodup rs seen
    · rw [dedupGo, if_neg hm]
      refine List.nodup_cons.mpr ⟨?_, dedupGo_map_num_nodup rs (r.num :: seen)⟩
      intro hmem
      rcases List.mem_map.mp hmem with ⟨x, hx, hnum⟩
      exact dedupGo_num_notin rs (r.num :: seen) x hx
        (hnum ▸ List.mem_cons_self _ _)

/-- The set of surviving numbers is the set of all numbers minus the seen
set. -/
theorem dedupGo_map_num_toFinset : ∀ (l : List PRec) (seen : List String),
    ((dedupGo seen l).map PRec.num).toFinset
      = (l.map PRec.num).toFinset \ seen.toFinset
  | [], seen => by simp [dedupGo]
  | r :: rs, seen => by
    by_cases hm : r.num ∈ seen
    · rw [dedupGo, if_pos hm]
      rw [dedupGo_map_num_toFinset rs seen]
      ext x
      by_cases hx : x = r.num <;> simp [hx, hm]
    · rw [dedupGo, if_neg hm]
      simp only [List.map_cons, List.toFinset_cons]
      rw [dedupGo_map_num_toFinset rs (r.num :: seen)]
      ext x
      by_cases hx : x = r.num <;> simp [hx, hm]

/-- Output size of the seen-set pass from the empty seen set: the number of
distinct identifiers. -/
theorem dedupGo_nil_length (l : List PRec) :
    (dedupGo [] l).length = ((l.map PRec.num).toFinset).card := by
  have h1 : (dedupGo [] l).length = ((dedupGo [] l).map PRec.num).length :=
    (List.length_map _ _).symm
  rw [h1, ← List.toFinset_card_of_nodup (dedupGo_map_num_nodup l []),
    dedupGo_map_num_toFinset l []]
  simp

/-- With every identifier non-empty, the Northwestern loop body agrees with
the PSU loop body (including the resulting seen sets). -/
theorem nwDedupGo_eq : ∀ (l : List PRec), (∀ r ∈ l, r.num ≠ "") →
    ∀ seen : List String,
      nwDedupGo seen l = dedupGo seen l ∧ nwSeenAfter seen l = seenAfter seen l
  | [], _, seen => ⟨rfl, rfl⟩
  | r :: rs, h, seen => by
    have hr : r.num ≠ "" := h r (List.mem_cons_self _ _)
    have htail := nwDedupGo_eq rs (fun x hx => h x (List.mem_cons_of_mem _ hx))
    by_cases hm : r.num ∈ seen
    · have hcond : ¬(r.num ≠ "" ∧ r.num ∉ seen) := fun hc => hc.2 hm
      rw [nwDedupGo, if_neg hcond, nwSeenAfter, if_neg hcond,
        dedupGo, if_pos hm, seenAfter, if_pos hm]
      exact htail seen
    · have hcond : r.num ≠ "" ∧ r.num ∉ seen := ⟨hr, hm⟩
      rw [nwDedupGo, if_pos hcond, nwSeenAfter, if_pos hcond,
        dedupGo, if_neg hm, seenAfter, if_neg hm]
      exact ⟨by rw [(htail (r.num :: seen)).1], (htail (r.num :: seen)).2⟩

/-- With every identifier non-empty, the Northwestern page loop agrees with
the PSU page loop. -/
theorem nwMergeGo_eq : ∀ (pages : List (List PRec)),
    (∀ r ∈ pages.flatten, r.num ≠ "") →
    ∀ seen : List String, nwMergeGo seen pages = psuMergeGo seen pages
  | [], _, seen => rfl
  | page :: rest, h, seen => by
    have hpage : ∀ r ∈ page, r.num ≠ "" :=
      fun r hr => h r (List.mem_flatten.mpr ⟨page, List.mem_cons_self _ _, hr⟩)
    have hrest : ∀ r ∈ rest.flatten, r.num ≠ "" := by
      intro r hr
      refine h r ?_
      rcases List.mem_flatten.mp hr with ⟨l, hl, hrl⟩
      exact List.mem_flatten.mpr ⟨l, List.mem_cons_of_mem _ hl, hrl⟩
    rw [nwMergeGo, psuMergeGo, (nwDedupGo_eq page hpage seen).1,
      (nwDedupGo_eq page hpage seen).2,
      nwMergeGo_eq rest hrest (seenAfter seen page)]

/-- All records pass the trivial empty-seen filter. -/
theorem filter_notin_nil (l : List PRec) :
    l.filter (fun r => decide (r.num ∉ ([] : List String))) = l := by
  induction l with
  | nil => rfl
  | cons r rs ih => simp [List.filter_cons, ih]

/-- Claim C5: both multi-page collectors keep exactly the first occurrence
of each incident identifier in first-seen insertion order, discarding later
duplicates, so the merged output size is the number of distinct identifiers
across all pages (for Northwestern, whose loop also requires a truthy
number, under the assumption that every record carries a non-empty
identifier). -/
theorem c5_dedup_first_occurrence_wins (pages : List (List PRec)) :
    psuMerge pages = firstOccurrences pages.flatten
  ∧ (psuMerge pages).length = ((pages.flatten.map PRec.num).toFinset).card
  ∧ ((∀ r ∈ pages.flatten, r.num ≠ "") →
      nwMerge pages = firstOccurrences pages.flatten
      ∧ (nwMerge pages).length
          = ((pages.flatten.map PRec.num).toFinset).card) := by
  have hpsu : psuMerge pages = dedupGo [] pages.flatten :=
    psuMergeGo_join pages []
  have hfo : psuMerge pages = firstOccurrences pages.flatten := by
    rw [hpsu, dedupGo_eq_firstOccurrences, filter_notin_nil]
  refine ⟨hfo, by rw [hpsu, dedupGo_nil_length], fun h => ?_⟩
  have hnw : nwMerge pages = psuMerge pages := nwMergeGo_eq pages h []
  exact ⟨by rw [hnw, hfo], by rw [hnw, hpsu, dedupGo_nil_length]⟩

/-- The specification's dedup example: three pages where the third repeats
two identifiers of the first. -/
def pagesEx : List (List PRec) :=
  [[⟨"I1", "a"⟩, ⟨"I2", "b"⟩, ⟨"I3", "c"⟩],
   [⟨"I4", "d"⟩, ⟨"I5", "e"⟩],
   [⟨"I1", "f"⟩, ⟨"I3", "g"⟩]]

/-- Witness for C5 on the spec's three-page example: both collectors agree
with the first-occurrence policy and the merged size is the distinct-id
count, concretely 5. -/
theorem c5_dedup_first_occurrence_wins_witness :
    psuMerge pagesEx = firstOccurrences pagesEx.flatten
  ∧ nwMerge pagesEx = firstOccurrences pagesEx.flatten
  ∧ (psuMerge pagesEx).length = ((pagesEx.flatten.map PRec.num).toFinset).card
  ∧ (psuMerge pagesEx).length = 5 :=
  ⟨(c5_dedup_first_occurrence_wins pagesEx).1,
   ((c5_dedup_first_occurrence_wins pagesEx).2.2 (by decide)).1,
   (c5_dedup_first_occurrence_wins pagesEx).2.1,
   by decide⟩

end UniCrime
